import Mathlib

set_option maxRecDepth 8192

/-!  Shallow embedding of the opencontainers repository
     (src/glue.rs and src/image/manifest.rs).

     Unix paths are modelled as lists of path components (strings that
     contain no separator); the byte strings of the source are modelled as
     Lean strings, with byte-level prefix operations carried out on the
     underlying character lists.  Fallible operations return Except. -/

/-- I/O errors carried inside unpack errors; modelled by their message. -/
abbrev IOError := String

/-- src/glue.rs lines 17-33: UnpackError. -/
inductive UnpackError where
  | GetEntries (e : IOError)
  | GetEntry (e : IOError)
  | GetEntryPath (e : IOError)
  | UnpackEntry (e : IOError)
  | AttemptedFilesystemTraversal (p : List String)
  deriving DecidableEq, Repr

/-- Rust Path::file_name over the component model: the last component,
    unless it is a parent-directory segment. -/
def file_name (p : List String) : Option String :=
  match p.getLast? with
  | none => none
  | some c => if c = ".." then none else some c

/-- Rust PathBuf::set_file_name over the component model: pop the final
    component when a file name is present, then push the new name (pushing
    an empty name adds no component, as in Rust). -/
def set_file_name (p : List String) (name : String) : List String :=
  let base := if (file_name p).isSome then p.dropLast else p
  if name = "" then base else base ++ [name]

/-- The file-whiteout marker ".wh." as the byte (character) sequence that
    get_whiteout_path_unix compares against. -/
def whMarker : List Char := ['.', 'w', 'h', '.']

/-- src/glue.rs lines 62-73: get_whiteout_path_unix.  The filename bytes are
    tested for the ".wh." prefix; on a match the first four bytes are
    stripped and the remainder is re-installed with set_file_name. -/
def get_whiteout_path (p : List String) : Option (List String) :=
  match file_name p with
  | none => none
  | some filename =>
    let bytes := filename.toList
    if whMarker.isPrefixOf bytes then
      some (set_file_name p (String.mk (bytes.drop 4)))
    else none

/-- The three mutation dispatches an Unpack implementation can receive. -/
inductive Change where
  | whiteoutFolder (p : List String)
  | whiteoutFile (p : List String)
  | addition (p : List String)
  deriving DecidableEq, Repr

/-- src/glue.rs lines 145-159: the dispatch decision taken by
    Unpack::apply_change once the entry path is known.  Note that the code
    passes the full path (marker filename included) to whiteout_folder. -/
def classifyChange (p : List String) : Change :=
  match file_name p with
  | some filename =>
    if filename = ".wh..wh..opq" then Change.whiteoutFolder p
    else
      match get_whiteout_path p with
      | some w => Change.whiteoutFile w
      | none => Change.addition p
  | none => Change.addition p

instance exceptDecEq {ε : Type u} {α : Type v} [DecidableEq ε] [DecidableEq α] :
    DecidableEq (Except ε α)
  | Except.error x, Except.error y =>
    if h : x = y then isTrue (h ▸ rfl)
    else isFalse (fun hc => h (Except.error.inj hc))
  | Except.error _, Except.ok _ => isFalse (fun hc => Except.noConfusion hc)
  | Except.ok _, Except.error _ => isFalse (fun hc => Except.noConfusion hc)
  | Except.ok x, Except.ok y =>
    if h : x = y then isTrue (h ▸ rfl)
    else isFalse (fun hc => h (Except.ok.inj hc))

/-- A changeset tar entry: its logical path as reported by tar (which can
    fail with an I/O error), plus the I/O failure, if any, that the
    entry's unpack_in call would hit (modelling the effectful call). -/
structure TarEntry where
  path : Except IOError (List String)
  unpackFail : Option IOError
  deriving DecidableEq, Repr

/-- Normalize `..` segments of a relative path against an implicit root:
    returns none when a `..` segment climbs above the root. -/
def normAux (stack : List String) : List String → Option (List String)
  | [] => some stack.reverse
  | c :: rest =>
    if c = ".." then
      match stack with
      | [] => none
      | _ :: s => normAux s rest
    else normAux (c :: stack) rest

/-- Whether a changeset entry path resolves outside the extraction root
    after normalizing `..` segments. -/
def escapesRoot (p : List String) : Bool := (normAux [] p).isNone

/-- Modelled from the spec: tar::Entry::unpack_in (the tar crate is not
    part of this repository's sources).  It reports the entry's I/O failure
    when one occurs and otherwise returns whether the entry stayed confined
    to the extraction root, i.e. whether its path, after normalizing `..`
    segments, still resolves inside the root. -/
def unpack_in (e : TarEntry) (p : List String) : Except IOError Bool :=
  match e.unpackFail with
  | some io => Except.error io
  | none => Except.ok (!escapesRoot p)

/-- src/glue.rs lines 224-227: SimpleFolderUnpacker. -/
structure SimpleFolderUnpacker where
  root : List String
  deriving DecidableEq, Repr

/-- src/glue.rs lines 240-252: SimpleFolderUnpacker::add.  Resolves the
    entry path, runs unpack_in against the root, wraps an I/O failure as
    UnpackEntry and reports AttemptedFilesystemTraversal with the offending
    path when unpack_in signals non-containment. -/
def SimpleFolderUnpacker.add (_u : SimpleFolderUnpacker) (e : TarEntry) :
    Except UnpackError Unit :=
  match e.path with
  | Except.error io => Except.error (UnpackError.GetEntryPath io)
  | Except.ok p =>
    match unpack_in e p with
    | Except.error io => Except.error (UnpackError.UnpackEntry io)
    | Except.ok true => Except.ok ()
    | Except.ok false => Except.error (UnpackError.AttemptedFilesystemTraversal p)

/-- src/glue.rs lines 254-258: SimpleFolderUnpacker::whiteout_file is a
    FIXME stub: it prints the path and returns Ok(()) unconditionally. -/
def SimpleFolderUnpacker.whiteout_file (_u : SimpleFolderUnpacker)
    (_p : List String) : Except UnpackError Unit :=
  Except.ok ()

/-- src/glue.rs lines 260-264: SimpleFolderUnpacker::whiteout_folder is a
    FIXME stub: it prints the path and returns Ok(()) unconditionally. -/
def SimpleFolderUnpacker.whiteout_folder (_u : SimpleFolderUnpacker)
    (_p : List String) : Except UnpackError Unit :=
  Except.ok ()

/-- The capability set of the Unpack trait (src/glue.rs lines 103-220):
    the three mutation operations plus the two layer hooks. -/
structure Unpacker where
  pre_apply : Except UnpackError Unit
  post_apply : Except UnpackError Unit
  add : TarEntry → Except UnpackError Unit
  whiteout_file : List String → Except UnpackError Unit
  whiteout_folder : List String → Except UnpackError Unit

/-- Observable events of a layer application: hook invocations and the
    dispatched mutation operations. -/
inductive Event where
  | preApply
  | postApply
  | dispatchAdd (p : List String)
  | dispatchWhiteoutFile (p : List String)
  | dispatchWhiteoutFolder (p : List String)
  deriving DecidableEq, Repr

/-- src/glue.rs lines 145-159: Unpack::apply_change, instrumented with the
    dispatch events it performs.  Path resolution failure is tagged
    GetEntryPath and dispatches nothing. -/
def Unpacker.apply_change (u : Unpacker) (e : TarEntry) :
    Except UnpackError Unit × List Event :=
  match e.path with
  | Except.error io => (Except.error (UnpackError.GetEntryPath io), [])
  | Except.ok p =>
    match classifyChange p with
    | Change.whiteoutFolder q => (u.whiteout_folder q, [Event.dispatchWhiteoutFolder q])
    | Change.whiteoutFile q => (u.whiteout_file q, [Event.dispatchWhiteoutFile q])
    | Change.addition _ => (u.add e, [Event.dispatchAdd p])

/-- One iteration of the entry loop in apply_layer: reading the entry can
    fail (tagged GetEntry), otherwise the change is applied. -/
def Unpacker.entryStep (u : Unpacker) (ent : Except IOError TarEntry) :
    Except UnpackError Unit × List Event :=
  match ent with
  | Except.error io => (Except.error (UnpackError.GetEntry io), [])
  | Except.ok e => u.apply_change e

/-- The entry loop of apply_layer (src/glue.rs lines 133-136): each failure
    aborts the fold immediately, carrying the events produced so far. -/
def Unpacker.applyEntries (u : Unpacker) :
    List (Except IOError TarEntry) → Except UnpackError Unit × List Event
  | [] => (Except.ok (), [])
  | ent :: rest =>
    match u.entryStep ent with
    | (Except.error err, tr) => (Except.error err, tr)
    | (Except.ok _, tr) =>
      ((u.applyEntries rest).1, tr ++ (u.applyEntries rest).2)

/-- src/glue.rs lines 130-139: Unpack::apply_layer.  pre_apply runs first;
    a failure to enumerate entries is tagged GetEntries; the entry loop
    runs next; post_apply runs only when every entry succeeded. -/
def Unpacker.apply_layer (u : Unpacker)
    (layer : Except IOError (List (Except IOError TarEntry))) :
    Except UnpackError Unit × List Event :=
  match u.pre_apply with
  | Except.error e => (Except.error e, [Event.preApply])
  | Except.ok _ =>
    match layer with
    | Except.error io => (Except.error (UnpackError.GetEntries io), [Event.preApply])
    | Except.ok entries =>
      match u.applyEntries entries with
      | (Except.error err, tr) => (Except.error err, Event.preApply :: tr)
      | (Except.ok _, tr) => (u.post_apply, Event.preApply :: (tr ++ [Event.postApply]))

/-- An unpacker whose operations and hooks all succeed; used to exercise
    the layer state machine on concrete inputs. -/
def unpackerNoop : Unpacker where
  pre_apply := Except.ok ()
  post_apply := Except.ok ()
  add := fun _ => Except.ok ()
  whiteout_file := fun _ => Except.ok ()
  whiteout_folder := fun _ => Except.ok ()

/-- The Unpack capability set of a SimpleFolderUnpacker (src/glue.rs lines
    239-265): its add/whiteout_file/whiteout_folder implementations together
    with the trait's default pre_apply/post_apply hooks (src/glue.rs lines
    209-219), which it does not override and which return Ok(()). -/
def SimpleFolderUnpacker.toUnpacker (u : SimpleFolderUnpacker) : Unpacker where
  pre_apply := Except.ok ()
  post_apply := Except.ok ()
  add := u.add
  whiteout_file := u.whiteout_file
  whiteout_folder := u.whiteout_folder

/-- src/image/manifest.rs lines 218-224: ManifestV2Schema. -/
inductive ManifestV2Schema where
  | Schema1
  | Schema2
  | Schema2List
  deriving DecidableEq, Repr

/-- src/image/manifest.rs lines 9-29: ManifestError (pest causes are
    modelled by the offending string alone). -/
inductive ManifestError where
  | JsonError (msg : String)
  | InvalidSchemaVersion (v : Nat)
  | InvalidMediaType (mt : String)
  | DigestParseFailed (s : String)
  | InvalidDigestAlgorithm (alg : String)
  | NoMatchingPlatformFound
  deriving DecidableEq, Repr

/-- The two fields probe_manifest_v2_schema decodes from the raw JSON: the
    schemaVersion (a u64) and the mediaType, which may be absent. -/
structure ManifestProbeDoc where
  schemaVersion : Nat
  mediaType : Option String
  deriving DecidableEq, Repr

/-- media_type.split('+').next(): the prefix of the string before the first
    '+' (the whole string when no '+' occurs). -/
def mediaTypeSplit (s : String) : String :=
  String.mk (s.toList.takeWhile (fun c => c != '+'))

/-- src/image/manifest.rs lines 246-275: probe_manifest_v2_schema over the
    probe document model.  A missing mediaType when schemaVersion is 2
    surfaces as the serde decode failure (JsonError). -/
def probe_manifest_v2_schema (d : ManifestProbeDoc) :
    Except ManifestError ManifestV2Schema :=
  if d.schemaVersion = 1 then Except.ok ManifestV2Schema.Schema1
  else if d.schemaVersion = 2 then
    match d.mediaType with
    | none => Except.error (ManifestError.JsonError "missing field mediaType")
    | some media_type =>
      let mts := mediaTypeSplit media_type
      if mts = "application/vnd.oci.distribution.manifest.v2" then
        Except.ok ManifestV2Schema.Schema2
      else if mts = "application/vnd.oci.distribution.manifest.list.v2" then
        Except.ok ManifestV2Schema.Schema2List
      else if mts = "application/vnd.docker.distribution.manifest.v2" then
        Except.ok ManifestV2Schema.Schema2
      else if mts = "application/vnd.docker.distribution.manifest.list.v2" then
        Except.ok ManifestV2Schema.Schema2List
      else Except.error (ManifestError.InvalidMediaType media_type)
  else Except.error (ManifestError.InvalidSchemaVersion d.schemaVersion)

/-- src/image/manifest.rs lines 79-97: LayerMediaType. -/
inductive LayerMediaType where
  | Tar
  | TarGz
  | NondistributableTar
  | NondistributableTarGz
  | Other (s : String)
  deriving DecidableEq, Repr

/-- src/image/manifest.rs lines 125-145: FromStr for LayerMediaType; the
    error type void::Void is modelled by Empty, so parsing is total. -/
def LayerMediaType.from_str (s : String) : Except Empty LayerMediaType :=
  Except.ok (
    if s = "application/vnd.oci.image.layer.v1.tar" then LayerMediaType.Tar
    else if s = "application/vnd.oci.image.layer.v1.tar+gzip" then LayerMediaType.TarGz
    else if s = "application/vnd.docker.image.rootfs.diff.tar.gzip" then LayerMediaType.TarGz
    else if s = "application/vnd.oci.image.layer.nondistributable.v1.tar" then
      LayerMediaType.NondistributableTar
    else if s = "application/vnd.oci.image.layer.nondistributable.v1.tar+gzip" then
      LayerMediaType.NondistributableTarGz
    else if s = "application/vnd.docker.image.rootfs.foreign.diff.tar.gzip" then
      LayerMediaType.NondistributableTarGz
    else LayerMediaType.Other s)

/-- src/image/manifest.rs lines 147-166: Display for LayerMediaType. -/
def LayerMediaType.display : LayerMediaType → String
  | LayerMediaType.Tar => "application/vnd.oci.image.layer.v1.tar"
  | LayerMediaType.TarGz => "application/vnd.oci.image.layer.v1.tar+gzip"
  | LayerMediaType.NondistributableTar =>
      "application/vnd.oci.image.layer.nondistributable.v1.tar"
  | LayerMediaType.NondistributableTarGz =>
      "application/vnd.oci.image.layer.nondistributable.v1.tar+gzip"
  | LayerMediaType.Other s => s

/-- The six media-type strings recognized by FromStr for LayerMediaType. -/
def layerMediaTypeStrings : List String :=
  [ "application/vnd.oci.image.layer.v1.tar"
  , "application/vnd.oci.image.layer.v1.tar+gzip"
  , "application/vnd.docker.image.rootfs.diff.tar.gzip"
  , "application/vnd.oci.image.layer.nondistributable.v1.tar"
  , "application/vnd.oci.image.layer.nondistributable.v1.tar+gzip"
  , "application/vnd.docker.image.rootfs.foreign.diff.tar.gzip" ]

/-- src/image/manifest.rs lines 346-349: DigestAlgorithm. -/
inductive DigestAlgorithm where
  | Sha256
  deriving DecidableEq, Repr

/-- src/image/manifest.rs lines 359-368: FromStr for DigestAlgorithm. -/
def DigestAlgorithm.from_str (s : String) : Except ManifestError DigestAlgorithm :=
  if s = "sha256" then Except.ok DigestAlgorithm.Sha256
  else Except.error (ManifestError.InvalidDigestAlgorithm s)

/-- src/image/manifest.rs lines 351-357: Display for DigestAlgorithm. -/
def DigestAlgorithm.display : DigestAlgorithm → String
  | DigestAlgorithm.Sha256 => "sha256"

/-- src/image/manifest.rs lines 298-302: Digest. -/
structure Digest where
  algorithm : DigestAlgorithm
  hex : String
  deriving DecidableEq, Repr

/-- src/image/manifest.rs lines 304-308: Display for Digest. -/
def Digest.display (d : Digest) : String :=
  DigestAlgorithm.display d.algorithm ++ ":" ++ d.hex

/-- Modelled from the spec: an algorithm-identifier character of the digest
    grammar (the pest file image/digest.pest is not among the repository
    sources); the spec calls the algorithm a bare identifier, modelled as a
    run of lowercase letters and digits. -/
def isAlgChar (c : Char) : Bool := c.isLower || c.isDigit

/-- Modelled from the spec: a hexadecimal character of the digest grammar's
    hex run. -/
def isHexChar (c : Char) : Bool :=
  c.isDigit || ('a' ≤ c && c ≤ 'f') || ('A' ≤ c && c ≤ 'F')

/-- Modelled from the spec: acceptance by the digest grammar
    algorithm ':' hex — a nonempty identifier, exactly one colon separator,
    and a nonempty contiguous hexadecimal run covering the rest. -/
def digestGrammarValid (s : String) : Bool :=
  match s.toList.dropWhile isAlgChar with
  | c :: hex =>
    (c == ':') && !(s.toList.takeWhile isAlgChar).isEmpty
      && !hex.isEmpty && hex.all isHexChar
  | [] => false

/-- src/image/manifest.rs lines 310-324: FromStr for Digest.  The grammar
    (modelled from the spec, see digestGrammarValid) is applied first; a
    rejection is DigestParseFailed carrying the input.  On acceptance the
    two tokens are handed to the algorithm parser and stored. -/
def Digest.from_str (s : String) : Except ManifestError Digest :=
  if digestGrammarValid s then
    match DigestAlgorithm.from_str (String.mk (s.toList.takeWhile isAlgChar)) with
    | Except.ok a =>
      Except.ok ⟨a, String.mk ((s.toList.dropWhile isAlgChar).drop 1)⟩
    | Except.error e => Except.error e
  else Except.error (ManifestError.DigestParseFailed s)

/-! Helper lemmas on the path model. -/

theorem whMarker_prefix_append (t : List Char) :
    whMarker.isPrefixOf (whMarker ++ t) = true := by
  simp [whMarker, List.isPrefixOf]

theorem file_name_concat (dir : List String) (f : String) (hf : f ≠ "..") :
    file_name (dir ++ [f]) = some f := by
  simp [file_name, List.getLast?_concat, hf]

theorem set_file_name_concat (dir : List String) (f name : String)
    (hf : f ≠ "..") (hname : name ≠ "") :
    set_file_name (dir ++ [f]) name = dir ++ [name] := by
  simp [set_file_name, file_name_concat dir f hf, hname]

theorem set_file_name_concat_empty (dir : List String) (f : String)
    (hf : f ≠ "..") :
    set_file_name (dir ++ [f]) "" = dir := by
  simp [set_file_name, file_name_concat dir f hf]

theorem get_whiteout_path_concat (dir : List String) (f : String) (hf : f ≠ "..") :
    get_whiteout_path (dir ++ [f])
      = (if whMarker.isPrefixOf f.toList then
          some (set_file_name (dir ++ [f]) (String.mk (f.toList.drop 4)))
        else none) := by
  simp [get_whiteout_path, file_name_concat dir f hf]

/-- Claim C1: evaluation at an escaping path.  SimpleFolderUnpacker.add does
    report the traversal, but the whiteout_file and whiteout_folder stubs
    return success on the very same escaping path instead of the
    AttemptedFilesystemTraversal error the claim requires of all three
    mutation operations. -/
theorem simpleFolderUnpacker_whiteouts_ignore_traversal :
    escapesRoot ["..", "etc", "passwd"] = true
    ∧ SimpleFolderUnpacker.whiteout_file ⟨["rootfs"]⟩ ["..", "etc", "passwd"]
        = Except.ok ()
    ∧ SimpleFolderUnpacker.whiteout_folder ⟨["rootfs"]⟩ ["..", "etc", "passwd"]
        = Except.ok ()
    ∧ SimpleFolderUnpacker.add ⟨["rootfs"]⟩
        ⟨Except.ok ["..", "etc", "passwd"], none⟩
        = Except.error (UnpackError.AttemptedFilesystemTraversal ["..", "etc", "passwd"]) :=
  ⟨rfl, rfl, rfl, rfl⟩

/-- Claim C2: evaluation at the failing input a/b/.wh..wh..opq.  apply_change
    dispatches whiteout_folder with the full path including the marker, not
    with the containing directory a/b that the claim (and the FIXME in the
    code) call for. -/
theorem apply_change_opq_marker_keeps_full_path :
    classifyChange ["a", "b", ".wh..wh..opq"]
      = Change.whiteoutFolder ["a", "b", ".wh..wh..opq"]
    ∧ classifyChange ["a", "b", ".wh..wh..opq"] ≠ Change.whiteoutFolder ["a", "b"] := by
  decide

/-- Claim C3: an entry whose filename is not the directory marker but has
    the ".wh." prefix followed by a nonempty remainder dispatches
    whiteout_file with the prefix stripped and the directory kept; an entry
    whose filename lacks the prefix dispatches add; together with the two
    spec scenarios. -/
theorem apply_change_file_whiteout_strips_marker
    (dir dir2 : List String) (f r g : String)
    (hf : f.toList = whMarker ++ r.toList)
    (hr : r ≠ "")
    (hm : f ≠ ".wh..wh..opq")
    (hg : whMarker.isPrefixOf g.toList = false)
    (hg2 : g ≠ "..") :
    classifyChange (dir ++ [f]) = Change.whiteoutFile (dir ++ [r])
    ∧ classifyChange (dir2 ++ [g]) = Change.addition (dir2 ++ [g])
    ∧ classifyChange ["a", "b", ".wh.c"] = Change.whiteoutFile ["a", "b", "c"]
    ∧ classifyChange ["a", "b", "c"] = Change.addition ["a", "b", "c"] := by
  have hfne : f ≠ ".." := by
    intro h
    rw [h] at hf
    have h2 : (".." : String).toList = ['.', '.'] := rfl
    rw [h2] at hf
    simp [whMarker] at hf
  refine ⟨?_, ?_, by decide, by decide⟩
  · have hgwp : get_whiteout_path (dir ++ [f]) = some (dir ++ [r]) := by
      rw [get_whiteout_path_concat dir f hfne]
      have hpre : whMarker.isPrefixOf f.toList = true := by
        rw [hf]; exact whMarker_prefix_append r.toList
      rw [if_pos hpre]
      have hdrop : f.toList.drop 4 = r.toList := by
        rw [hf]
        have h4 : whMarker.length = 4 := rfl
        rw [← h4, List.drop_left]
      rw [hdrop]
      have hmkr : String.mk r.toList = r := rfl
      rw [hmkr, set_file_name_concat dir f r hfne hr]
    simp [classifyChange, file_name_concat dir f hfne, hm, hgwp]
  · have hgm : g ≠ ".wh..wh..opq" := by
      intro h
      rw [h] at hg
      exact absurd hg (by decide)
    have hgwp : get_whiteout_path (dir2 ++ [g]) = none := by
      rw [get_whiteout_path_concat dir2 g hg2, if_neg ?hc]
      case hc =>
        intro hcontra
        rw [hg] at hcontra
        exact Bool.noConfusion hcontra
    simp [classifyChange, file_name_concat dir2 g hg2, hgm, hgwp]

theorem apply_change_file_whiteout_strips_marker_witness :
    classifyChange (["a", "b"] ++ [".wh.c"]) = Change.whiteoutFile (["a", "b"] ++ ["c"])
    ∧ classifyChange (["x"] ++ ["c"]) = Change.addition (["x"] ++ ["c"]) := by
  have h := apply_change_file_whiteout_strips_marker ["a", "b"] ["x"] ".wh.c" "c" "c"
      (by decide) (by decide) (by decide) (by decide) (by decide)
  exact ⟨h.1, h.2.1⟩

/-- Claim C4 counterexample: a path whose final component is exactly ".wh."
    IS recognized by get_whiteout_path, and apply_change classifies it as a
    file whiteout, not as an addition, refuting the claim at the concrete
    input a/b/.wh. . -/
theorem bare_wh_marker_counterexample :
    ¬ (get_whiteout_path ["a", "b", ".wh."] = none
       ∧ classifyChange ["a", "b", ".wh."] = Change.addition ["a", "b", ".wh."]) := by
  decide

/-- Claim C4 amended: for a final component that is exactly the marker
    prefix ".wh.", the byte-prefix test still matches (the stripped
    remainder is empty), so get_whiteout_path returns the containing
    directory (set_file_name with an empty name drops the final component)
    and apply_change dispatches whiteout_file with that directory path. -/
theorem bare_wh_marker_is_whiteout (dir : List String) :
    get_whiteout_path (dir ++ [".wh."]) = some dir
    ∧ classifyChange (dir ++ [".wh."]) = Change.whiteoutFile dir := by
  have hfne : (".wh." : String) ≠ ".." := by decide
  have hpre : whMarker.isPrefixOf (".wh." : String).toList = true := by decide
  have hdrop : (".wh." : String).toList.drop 4 = [] := by decide
  have hempty : set_file_name (dir ++ [".wh."]) "" = dir :=
    set_file_name_concat_empty dir ".wh." hfne
  have hgw : get_whiteout_path (dir ++ [".wh."]) = some dir := by
    rw [get_whiteout_path_concat dir ".wh." hfne, if_pos hpre, hdrop]
    exact congrArg some hempty
  have hmne : (".wh." : String) ≠ ".wh..wh..opq" := by decide
  refine ⟨hgw, ?_⟩
  simp [classifyChange, file_name_concat dir ".wh." hfne, hmne, hgw]

theorem entryStep_no_postApply (u : Unpacker) (ent : Except IOError TarEntry) :
    Event.postApply ∉ (u.entryStep ent).2 := by
  cases ent with
  | error io => simp [Unpacker.entryStep]
  | ok e =>
    simp only [Unpacker.entryStep, Unpacker.apply_change]
    cases hp : e.path with
    | error io => simp
    | ok p => cases hc : classifyChange p <;> simp [hc]

theorem applyEntries_ok_front (u : Unpacker) (pre l : List (Except IOError TarEntry))
    (h : ∀ e ∈ pre, (u.entryStep e).1 = Except.ok ()) :
    u.applyEntries (pre ++ l)
      = ((u.applyEntries l).1,
         pre.flatMap (fun e => (u.entryStep e).2) ++ (u.applyEntries l).2) := by
  induction pre with
  | nil => simp
  | cons e pre ih =>
    have he : (u.entryStep e).1 = Except.ok () := h e (List.mem_cons_self e pre)
    have hrest : ∀ x ∈ pre, (u.entryStep x).1 = Except.ok () :=
      fun x hx => h x (List.mem_cons_of_mem e hx)
    have hstep : u.entryStep e = (Except.ok (), (u.entryStep e).2) := by
      rw [← he]
    show u.applyEntries (e :: (pre ++ l)) = _
    simp only [Unpacker.applyEntries]
    rw [hstep]
    simp [ih hrest, List.flatMap_cons, List.append_assoc]

/-- Claim C5: with pre_apply succeeding and every entry before the failing
    one succeeding, apply_layer aborts at the first failure: it returns
    exactly that failure, the dispatch trace contains nothing from the
    entries after it, post_apply is never invoked, and each phase tags its
    failure as GetEntries (enumeration), GetEntry (reading one entry) or
    GetEntryPath (path resolution); an extraction I/O failure is tagged
    UnpackEntry by SimpleFolderUnpacker.add and apply_layer run over its
    capability set returns exactly that UnpackEntry error. -/
theorem apply_layer_abort_and_phase_tags (u : Unpacker)
    (pre rest : List (Except IOError TarEntry)) (bad : Except IOError TarEntry)
    (err : UnpackError) (io : IOError)
    (sfu : SimpleFolderUnpacker) (q : List String) (io2 : IOError)
    (hpre : u.pre_apply = Except.ok ())
    (hok : ∀ e ∈ pre, (u.entryStep e).1 = Except.ok ())
    (hbad : (u.entryStep bad).1 = Except.error err)
    (hq : classifyChange q = Change.addition q) :
    u.apply_layer (Except.ok (pre ++ bad :: rest))
      = (Except.error err,
         Event.preApply ::
           (pre.flatMap (fun e => (u.entryStep e).2) ++ (u.entryStep bad).2))
    ∧ Event.postApply ∉ (u.apply_layer (Except.ok (pre ++ bad :: rest))).2
    ∧ u.apply_layer (Except.error io)
        = (Except.error (UnpackError.GetEntries io), [Event.preApply])
    ∧ u.entryStep (Except.error io) = (Except.error (UnpackError.GetEntry io), [])
    ∧ Unpacker.apply_change u ⟨Except.error io, none⟩
        = (Except.error (UnpackError.GetEntryPath io), [])
    ∧ SimpleFolderUnpacker.add sfu ⟨Except.ok q, some io2⟩
        = Except.error (UnpackError.UnpackEntry io2)
    ∧ (SimpleFolderUnpacker.toUnpacker sfu).apply_layer
        (Except.ok [Except.ok ⟨Except.ok q, some io2⟩])
        = (Except.error (UnpackError.UnpackEntry io2),
           [Event.preApply, Event.dispatchAdd q]) := by
  have hbadstep : u.entryStep bad = (Except.error err, (u.entryStep bad).2) := by
    rw [← hbad]
  have hbadlist : u.applyEntries (bad :: rest)
      = (Except.error err, (u.entryStep bad).2) := by
    simp only [Unpacker.applyEntries]
    rw [hbadstep]
  have happ : u.applyEntries (pre ++ bad :: rest)
      = (Except.error err,
         pre.flatMap (fun e => (u.entryStep e).2) ++ (u.entryStep bad).2) := by
    rw [applyEntries_ok_front u pre (bad :: rest) hok, hbadlist]
  have hlayer : u.apply_layer (Except.ok (pre ++ bad :: rest))
      = (Except.error err,
         Event.preApply ::
           (pre.flatMap (fun e => (u.entryStep e).2) ++ (u.entryStep bad).2)) := by
    simp only [Unpacker.apply_layer]
    rw [hpre, happ]
  refine ⟨hlayer, ?_, ?_, rfl, rfl, rfl, ?_⟩
  · rw [hlayer]
    intro hmem
    rcases List.mem_cons.mp hmem with h1 | h2
    · exact Event.noConfusion h1
    · rcases List.mem_append.mp h2 with h3 | h4
      · rcases List.mem_flatMap.mp h3 with ⟨e, _, hme⟩
        exact entryStep_no_postApply u e hme
      · exact entryStep_no_postApply u bad h4
  · simp only [Unpacker.apply_layer]
    rw [hpre]
  · simp [Unpacker.apply_layer, Unpacker.applyEntries, Unpacker.entryStep,
          Unpacker.apply_change, SimpleFolderUnpacker.toUnpacker,
          SimpleFolderUnpacker.add, unpack_in, hq]

theorem apply_layer_abort_and_phase_tags_witness :
    unpackerNoop.apply_layer (Except.ok ([] ++ Except.error "boom" :: []))
      = (Except.error (UnpackError.GetEntry "boom"), [Event.preApply])
    ∧ unpackerNoop.apply_layer (Except.error "net")
        = (Except.error (UnpackError.GetEntries "net"), [Event.preApply])
    ∧ (SimpleFolderUnpacker.toUnpacker ⟨["rootfs"]⟩).apply_layer
        (Except.ok [Except.ok ⟨Except.ok ["data"], some "disk full"⟩])
        = (Except.error (UnpackError.UnpackEntry "disk full"),
           [Event.preApply, Event.dispatchAdd ["data"]]) := by
  have h := apply_layer_abort_and_phase_tags unpackerNoop [] []
      (Except.error "boom") (UnpackError.GetEntry "boom") "net"
      ⟨["rootfs"]⟩ ["data"] "disk full" rfl
      (fun e he => nomatch he) rfl (by decide)
  exact ⟨h.1, h.2.2.1, h.2.2.2.2.2.2⟩

/-- Claim C6: probe_manifest_v2_schema returns Schema1 on schemaVersion 1
    whatever the mediaType field holds (present or absent), rejects any
    other version than 1 and 2 with InvalidSchemaVersion, and on version 2
    classifies by the prefix of mediaType before the first '+': the OCI and
    Docker distribution-manifest spellings give Schema2, the OCI and Docker
    manifest-list spellings give Schema2List, and anything else fails with
    InvalidMediaType carrying the offending media-type string. -/
theorem probe_manifest_v2_schema_classification
    (mt : Option String) (v : Nat) (s : String)
    (hv1 : v ≠ 1) (hv2 : v ≠ 2) :
    probe_manifest_v2_schema ⟨1, mt⟩ = Except.ok ManifestV2Schema.Schema1
    ∧ probe_manifest_v2_schema ⟨v, mt⟩
        = Except.error (ManifestError.InvalidSchemaVersion v)
    ∧ ((mediaTypeSplit s = "application/vnd.oci.distribution.manifest.v2"
        ∨ mediaTypeSplit s = "application/vnd.docker.distribution.manifest.v2") →
        probe_manifest_v2_schema ⟨2, some s⟩ = Except.ok ManifestV2Schema.Schema2)
    ∧ ((mediaTypeSplit s = "application/vnd.oci.distribution.manifest.list.v2"
        ∨ mediaTypeSplit s = "application/vnd.docker.distribution.manifest.list.v2") →
        probe_manifest_v2_schema ⟨2, some s⟩ = Except.ok ManifestV2Schema.Schema2List)
    ∧ (mediaTypeSplit s ≠ "application/vnd.oci.distribution.manifest.v2" →
       mediaTypeSplit s ≠ "application/vnd.oci.distribution.manifest.list.v2" →
       mediaTypeSplit s ≠ "application/vnd.docker.distribution.manifest.v2" →
       mediaTypeSplit s ≠ "application/vnd.docker.distribution.manifest.list.v2" →
        probe_manifest_v2_schema ⟨2, some s⟩
          = Except.error (ManifestError.InvalidMediaType s)) := by
  refine ⟨rfl, ?_, ?_, ?_, ?_⟩
  · simp [probe_manifest_v2_schema, hv1, hv2]
  · rintro (h | h) <;> simp [probe_manifest_v2_schema, h]
  · rintro (h | h) <;> simp [probe_manifest_v2_schema, h]
  · intro h1 h2 h3 h4
    simp [probe_manifest_v2_schema, h1, h2, h3, h4]

theorem probe_manifest_v2_schema_classification_witness :
    probe_manifest_v2_schema ⟨1, none⟩ = Except.ok ManifestV2Schema.Schema1
    ∧ probe_manifest_v2_schema ⟨3, none⟩
        = Except.error (ManifestError.InvalidSchemaVersion 3)
    ∧ probe_manifest_v2_schema
        ⟨2, some "application/vnd.docker.distribution.manifest.v2+json"⟩
        = Except.ok ManifestV2Schema.Schema2 := by
  have h := probe_manifest_v2_schema_classification none 3
      "application/vnd.docker.distribution.manifest.v2+json"
      (by decide) (by decide)
  exact ⟨h.1, h.2.1, h.2.2.1 (Or.inr (by decide))⟩

theorem digestGrammarValid_shape (s : String) (h : digestGrammarValid s = true) :
    ∃ hex, s.toList.dropWhile isAlgChar = ':' :: hex
      ∧ (s.toList.takeWhile isAlgChar).isEmpty = false
      ∧ hex.isEmpty = false ∧ hex.all isHexChar = true := by
  unfold digestGrammarValid at h
  cases hc : s.toList.dropWhile isAlgChar with
  | nil => rw [hc] at h; exact absurd h (by simp)
  | cons c hex =>
    rw [hc] at h
    simp only [Bool.and_eq_true, beq_iff_eq, Bool.not_eq_true'] at h
    obtain ⟨⟨⟨hcolon, h1⟩, h2⟩, h3⟩ := h
    exact ⟨hex, by rw [hcolon], h1, h2, h3⟩

/-- Claim C7 amended: for every digest string accepted by the (spec-modelled)
    grammar whose algorithm token is sha256, parsing succeeds and formatting
    the parsed digest reproduces the input exactly; the scenario digest
    parses to algorithm Sha256 with the given hex and re-formats to the
    exact input string. -/
theorem digest_roundtrip_sha256 (s : String)
    (hv : digestGrammarValid s = true)
    (halg : s.toList.takeWhile isAlgChar = "sha256".toList) :
    (∃ d, Digest.from_str s = Except.ok d ∧ Digest.display d = s)
    ∧ Digest.from_str "sha256:6c3c624b58dbbcd3c0dd82b4c53f04194d1247c6eebdaab7c610cf7d66709b3b"
        = Except.ok ⟨DigestAlgorithm.Sha256,
            "6c3c624b58dbbcd3c0dd82b4c53f04194d1247c6eebdaab7c610cf7d66709b3b"⟩
    ∧ Digest.display ⟨DigestAlgorithm.Sha256,
          "6c3c624b58dbbcd3c0dd82b4c53f04194d1247c6eebdaab7c610cf7d66709b3b"⟩
        = "sha256:6c3c624b58dbbcd3c0dd82b4c53f04194d1247c6eebdaab7c610cf7d66709b3b" := by
  refine ⟨?_, rfl, rfl⟩
  obtain ⟨hex, hd, -, -, -⟩ := digestGrammarValid_shape s hv
  have halgstr : String.mk (s.toList.takeWhile isAlgChar) = "sha256" := by
    rw [halg]; rfl
  have hparse : Digest.from_str s
      = Except.ok ⟨DigestAlgorithm.Sha256, String.mk hex⟩ := by
    unfold Digest.from_str
    rw [if_pos hv, halgstr]
    have hsha : DigestAlgorithm.from_str "sha256" = Except.ok DigestAlgorithm.Sha256 := rfl
    rw [hsha, hd]; rfl
  refine ⟨⟨DigestAlgorithm.Sha256, String.mk hex⟩, hparse, ?_⟩
  have hlist : "sha256".toList ++ ':' :: hex = s.toList := by
    rw [← halg, ← hd]
    exact List.takeWhile_append_dropWhile isAlgChar s.toList
  show "sha256" ++ ":" ++ String.mk hex = s
  have h1 : "sha256" ++ ":" ++ String.mk hex
      = String.mk ("sha256".toList ++ ':' :: hex) := rfl
  rw [h1, hlist]; rfl

/-- Claim C7 counterexample: "md5:0a" is accepted by the digest grammar
    (identifier, one colon, hexadecimal run) yet parsing fails, with the
    unsupported-algorithm error, so parsing does not succeed on every
    syntactically valid digest string. -/
theorem digest_roundtrip_counterexample :
    digestGrammarValid "md5:0a" = true
    ∧ Digest.from_str "md5:0a"
        = Except.error (ManifestError.InvalidDigestAlgorithm "md5") :=
  ⟨rfl, rfl⟩

theorem digest_roundtrip_sha256_witness :
    digestGrammarValid "sha256:0a1b" = true
    ∧ (∃ d, Digest.from_str "sha256:0a1b" = Except.ok d
        ∧ Digest.display d = "sha256:0a1b") := by
  refine ⟨by decide, ?_⟩
  exact (digest_roundtrip_sha256 "sha256:0a1b" (by decide) (by decide)).1

/-- Claim C8: an input rejected by the grammar (zero or several colons, or
    a non-hexadecimal second token) fails with DigestParseFailed carrying
    the input, while a grammar-valid input whose algorithm token is not
    sha256 fails with the distinct InvalidDigestAlgorithm error carrying
    the algorithm token; including the three rejected inputs from the
    repository's own tests. -/
theorem digest_error_classes (s t : String)
    (hs : digestGrammarValid s = false)
    (ht : digestGrammarValid t = true)
    (halg : String.mk (t.toList.takeWhile isAlgChar) ≠ "sha256") :
    Digest.from_str s = Except.error (ManifestError.DigestParseFailed s)
    ∧ Digest.from_str t
        = Except.error (ManifestError.InvalidDigestAlgorithm
            (String.mk (t.toList.takeWhile isAlgChar)))
    ∧ Digest.from_str "foobar" = Except.error (ManifestError.DigestParseFailed "foobar")
    ∧ Digest.from_str "a::deadbeef"
        = Except.error (ManifestError.DigestParseFailed "a::deadbeef")
    ∧ Digest.from_str "sha256:xxxyyyzzz"
        = Except.error (ManifestError.DigestParseFailed "sha256:xxxyyyzzz") := by
  refine ⟨?_, ?_, rfl, rfl, rfl⟩
  · unfold Digest.from_str
    rw [if_neg ?hc]
    case hc =>
      intro hcontra
      rw [hs] at hcontra
      exact Bool.noConfusion hcontra
  · unfold Digest.from_str
    rw [if_pos ht]
    have halgfail : DigestAlgorithm.from_str (String.mk (t.toList.takeWhile isAlgChar))
        = Except.error (ManifestError.InvalidDigestAlgorithm
            (String.mk (t.toList.takeWhile isAlgChar))) := by
      unfold DigestAlgorithm.from_str
      rw [if_neg halg]
    rw [halgfail]

theorem digest_error_classes_witness :
    Digest.from_str "a::deadbeef"
      = Except.error (ManifestError.DigestParseFailed "a::deadbeef")
    ∧ Digest.from_str "md4:00"
      = Except.error (ManifestError.InvalidDigestAlgorithm "md4") := by
  have h := digest_error_classes "a::deadbeef" "md4:00" (by decide) (by decide) (by decide)
  exact ⟨h.1, h.2.1⟩

/-- Claim C9: LayerMediaType parsing is total (the error type is empty and
    every string yields ok): the six recognized strings map to the four
    known variants, any other string maps to Other of itself; parsing the
    formatted string of each known variant returns that variant, and
    formatting is the identity on the string carried by Other. -/
theorem layer_media_type_total_and_inverse (s : String)
    (h : s ∉ layerMediaTypeStrings) :
    LayerMediaType.from_str "application/vnd.oci.image.layer.v1.tar"
      = Except.ok LayerMediaType.Tar
    ∧ LayerMediaType.from_str "application/vnd.oci.image.layer.v1.tar+gzip"
      = Except.ok LayerMediaType.TarGz
    ∧ LayerMediaType.from_str "application/vnd.docker.image.rootfs.diff.tar.gzip"
      = Except.ok LayerMediaType.TarGz
    ∧ LayerMediaType.from_str "application/vnd.oci.image.layer.nondistributable.v1.tar"
      = Except.ok LayerMediaType.NondistributableTar
    ∧ LayerMediaType.from_str "application/vnd.oci.image.layer.nondistributable.v1.tar+gzip"
      = Except.ok LayerMediaType.NondistributableTarGz
    ∧ LayerMediaType.from_str "application/vnd.docker.image.rootfs.foreign.diff.tar.gzip"
      = Except.ok LayerMediaType.NondistributableTarGz
    ∧ LayerMediaType.from_str s = Except.ok (LayerMediaType.Other s)
    ∧ LayerMediaType.from_str (LayerMediaType.display LayerMediaType.Tar)
      = Except.ok LayerMediaType.Tar
    ∧ LayerMediaType.from_str (LayerMediaType.display LayerMediaType.TarGz)
      = Except.ok LayerMediaType.TarGz
    ∧ LayerMediaType.from_str (LayerMediaType.display LayerMediaType.NondistributableTar)
      = Except.ok LayerMediaType.NondistributableTar
    ∧ LayerMediaType.from_str (LayerMediaType.display LayerMediaType.NondistributableTarGz)
      = Except.ok LayerMediaType.NondistributableTarGz
    ∧ (∀ r : String, LayerMediaType.display (LayerMediaType.Other r) = r) := by
  simp only [layerMediaTypeStrings, List.mem_cons, List.not_mem_nil, or_false,
    not_or] at h
  obtain ⟨h1, h2, h3, h4, h5, h6⟩ := h
  refine ⟨rfl, rfl, rfl, rfl, rfl, rfl, ?_, rfl, rfl, rfl, rfl, fun r => rfl⟩
  unfold LayerMediaType.from_str
  rw [if_neg h1, if_neg h2, if_neg h3, if_neg h4, if_neg h5, if_neg h6]

theorem layer_media_type_total_and_inverse_witness :
    LayerMediaType.from_str "text/plain"
      = Except.ok (LayerMediaType.Other "text/plain") := by
  have h := layer_media_type_total_and_inverse "text/plain" (by decide)
  exact h.2.2.2.2.2.2.1

/-- Claim C10: the Docker layer media-type spellings parse to TarGz and
    NondistributableTarGz, those variants format to the OCI "+gzip"
    spellings, and hence formatting after parsing is not the string
    identity on the Docker spellings. -/
theorem layer_media_type_docker_canonicalization :
    LayerMediaType.from_str "application/vnd.docker.image.rootfs.diff.tar.gzip"
      = Except.ok LayerMediaType.TarGz
    ∧ LayerMediaType.from_str "application/vnd.docker.image.rootfs.foreign.diff.tar.gzip"
      = Except.ok LayerMediaType.NondistributableTarGz
    ∧ LayerMediaType.display LayerMediaType.TarGz
      = "application/vnd.oci.image.layer.v1.tar+gzip"
    ∧ LayerMediaType.display LayerMediaType.NondistributableTarGz
      = "application/vnd.oci.image.layer.nondistributable.v1.tar+gzip"
    ∧ LayerMediaType.display LayerMediaType.TarGz
      ≠ "application/vnd.docker.image.rootfs.diff.tar.gzip"
    ∧ LayerMediaType.display LayerMediaType.NondistributableTarGz
      ≠ "application/vnd.docker.image.rootfs.foreign.diff.tar.gzip" := by
  refine ⟨rfl, rfl, rfl, rfl, by decide, by decide⟩
